import Mathlib

/-!
Verification of the ailuna-call-engine realtime voice-agent bridge
(`src/realtimeSession.ts`, corpus file `part_010`).

The development shallowly embeds the two subsystems the claims are about:

* the reservation finalizer (`handleFinalizeReservation`,
  `insertReservationFromTool`): pure functions over a JSON-value type with
  JavaScript coercion semantics, with the reservation store's state passed
  explicitly and the store's unique index on `call_sid` modelled by a
  duplicate check (Postgres error 23505 in the source);
* the per-call orchestrator / playback tracker / barge-in controller:
  an explicit state record and a step function over the realtime events,
  with timers modelled as armed flags and timer-fire events, and every
  outbound message (audio, mark, clear, truncate, session.update, log
  record) collected in an output list.
-/

/-- JavaScript values as produced by `JSON.parse`: null, booleans, numbers
(integers in this domain), strings, arrays and objects.  `undefined` is
represented as `Option.none` at use sites. -/
inductive JVal where
  | jnull : JVal
  | jbool : Bool → JVal
  | jnum : Int → JVal
  | jstr : String → JVal
  | jarr : List JVal → JVal
  | jobj : List (String × JVal) → JVal

-- JavaScript `String(v)` conversion, mutually with array `join(",")`
-- (array elements that are `null` stringify to the empty string).
mutual

/-- `String(v)` for a defined JavaScript value. -/
def jsString : JVal → String
  | .jnull => "null"
  | .jbool b => cond b "true" "false"
  | .jnum n => toString n
  | .jstr s => s
  | .jarr xs => jsJoin xs
  | .jobj _ => "[object Object]"

/-- `Array.prototype.join(",")` over stringified elements. -/
def jsJoin : List JVal → String
  | [] => ""
  | [.jnull] => ""
  | [v] => jsString v
  | .jnull :: v :: vs => "," ++ jsJoin (v :: vs)
  | u :: v :: vs => jsString u ++ "," ++ jsJoin (v :: vs)

end

/-- `String(v)` where `v` may be `undefined` (JS stringifies it to
`"undefined"`). -/
def jsStringOpt : Option JVal → String
  | none => "undefined"
  | some v => jsString v

/-- JavaScript truthiness of a defined value. -/
def jsTruthy : JVal → Bool
  | .jnull => false
  | .jbool b => b
  | .jnum n => n != 0
  | .jstr s => s != ""
  | .jarr _ => true
  | .jobj _ => true

/-- `a || b` where `a` may be `undefined`. -/
def jsOrOpt (a : Option JVal) (b : JVal) : JVal :=
  match a with
  | some v => if jsTruthy v then v else b
  | none => b

/-- `a || b` on defined values. -/
def jsOrV (a b : JVal) : JVal :=
  if jsTruthy a then a else b

/-- Property access `v[key]`; objects follow JS semantics where the last
binding of a duplicated key wins, every other value has no such property. -/
def getProp : JVal → String → Option JVal
  | .jobj l, k => ((l.filter (fun p => p.1 == k)).getLast?).map Prod.snd
  | _, _ => none

/-- Object spread `{...args, key: v}`: rebind `key` (the last binding wins
under `getProp`). -/
def setProp (args : JVal) (key : String) (v : JVal) : JVal :=
  match args with
  | .jobj l => .jobj (l ++ [(key, v)])
  | _ => .jobj [(key, v)]

/-- JavaScript `String.prototype.trim()` (whitespace restricted to the
ASCII space, tab, CR and LF that occur in this domain), written over the
character list so that it evaluates inside the kernel. -/
def jsTrim (s : String) : String :=
  String.mk (((s.toList.dropWhile Char.isWhitespace).reverse.dropWhile
    Char.isWhitespace).reverse)

/-- `String(val).replace(/[^\d]/g, '')`: keep only ASCII digits. -/
def stripNonDigits (s : String) : String :=
  String.mk (s.toList.filter Char.isDigit)

/-- Decimal value of a non-empty all-digit character list. -/
def digitsToNat (l : List Char) : Nat :=
  l.foldl (fun acc c => acc * 10 + (c.toNat - Char.toNat '0')) 0

/-- `parseInt(String(val).replace(/[^\d]/g, ''), 10)`: after stripping, the
string is all digits, so `parseInt` yields its decimal value, or NaN when
the string is empty (`none` here). -/
def parseIntStripped (s : String) : Option Int :=
  match (stripNonDigits s).toList with
  | [] => none
  | ds => some (Int.ofNat (digitsToNat ds))

/-- `/^\d{4}-\d{2}-\d{2}$/.test s`. -/
def isDateFmt (s : String) : Bool :=
  match s.toList with
  | [y1, y2, y3, y4, h1, m1, m2, h2, d1, d2] =>
    y1.isDigit && y2.isDigit && y3.isDigit && y4.isDigit && h1 == '-'
      && m1.isDigit && m2.isDigit && h2 == '-' && d1.isDigit && d2.isDigit
  | _ => false

/-- `/^\d{2}:\d{2}$/.test s`. -/
def isTimeFmt (s : String) : Bool :=
  match s.toList with
  | [h1, h2, c, m1, m2] =>
    h1.isDigit && h2.isDigit && c == ':' && m1.isDigit && m2.isDigit
  | _ => false

/-- A reservation form field row (`ReservationField` in `types.ts`); the
runtime treats a missing `enabled` as enabled (`enabled !== false`), so it
is carried as an `Option`. -/
structure ReservationField where
  field_key : String
  label : String
  field_type : String
  required : Bool
  options : Option (List String) := none
  description : Option String := none
  display_order : Int := 0
  enabled : Option Bool := none
deriving Repr, DecidableEq

/-- `DEFAULT_RESERVATION_FIELDS`: the built-in four canonical fields. -/
def DEFAULT_RESERVATION_FIELDS : List ReservationField :=
  [ { field_key := "customer_name", label := "お名前", field_type := "text",
      required := true, display_order := 1, enabled := some true },
    { field_key := "party_size", label := "人数", field_type := "number",
      required := true, display_order := 2, enabled := some true },
    { field_key := "requested_date", label := "希望日", field_type := "date",
      required := true, display_order := 3, enabled := some true },
    { field_key := "requested_time", label := "希望時間", field_type := "time",
      required := true, display_order := 4, enabled := some true } ]

/-- The filter `f.enabled !== false` applied throughout the session. -/
def fieldEnabled (f : ReservationField) : Bool :=
  f.enabled != some false

/-- The result object sent back to the model as `function_call_output`
(field set mirrors the TS result literals; absent keys are `none`). -/
structure FinalizeResult where
  ok : Bool
  reservation_id : Option String := none
  deduped : Option Bool := none
  error_type : Option String := none
  error_code : Option String := none
  missing_fields : Option (List String) := none
deriving Repr, DecidableEq

/-- One persisted row of `reservation_requests` (the columns written by
`insertReservationFromTool`). -/
structure ReservationRow where
  user_id : String
  call_sid : String
  customer_phone : String
  customer_name : JVal
  requested_date : JVal
  requested_time : JVal
  party_size : JVal
  status : String
  answers : List (String × JVal)
  source : String

/-- The payload handed to `notificationService.notifyReservation`. -/
structure NotificationPayload where
  user_id : String
  customer_name : JVal
  customer_phone : String
  party_size : Option JVal
  requested_date : Option JVal
  requested_time : Option JVal
  requested_datetime_text : String
  answers : List (String × JVal)

/-- The per-call context the finalizer reads from the session object. -/
structure SessionCtx where
  userId : Option String
  callSid : String
  callerNumber : Option String := none
  reservationFields : List ReservationField

/-- Outcome of a tool invocation: the result returned to the model, the
reservation-store state after the call, and the notifications dispatched. -/
structure ToolOutcome where
  result : FinalizeResult
  db : List ReservationRow
  notifications : List NotificationPayload

/-- `reservation_requests.source` value for tool-call inserts. -/
def RESERVATION_SOURCE_REALTIME_TOOL : String := "phone_call_realtime_tool"

/-- Accumulator of the per-field coercion/validation loop. -/
structure ValAcc where
  missingFields : List String
  cleanAnswers : List (String × JVal)

/-- Number coercion: `parseInt(String(val).replace(/[^\d]/g, ''), 10)`,
keeping the original value when the parse is NaN. -/
def coerceNumber (v : Option JVal) : Option JVal :=
  match parseIntStripped (jsStringOpt v) with
  | some n => some (.jnum n)
  | none => v

/-- `val === undefined || val === null || String(val).trim() === ''`. -/
def isEmptyVal (v : Option JVal) : Bool :=
  match v with
  | none => true
  | some .jnull => true
  | some w => jsTrim (jsString w) == ""

/-- The coerced value of field `f` inside `rawAnswers`. -/
def coercedVal (rawAnswers : JVal) (f : ReservationField) : Option JVal :=
  let val := getProp rawAnswers f.field_key
  if f.field_type == "number" then coerceNumber val else val

/-- Strict equality against the empty-string literal (`val === ''`). -/
def isEmptyStrVal : JVal → Bool
  | .jstr s => s == ""
  | _ => false

/-- Strict equality against the boolean literal `true` (`v === true`). -/
def isExactlyTrue : Option JVal → Bool
  | some (.jbool b) => b
  | _ => false

/-- `typeof val === 'number'`. -/
def isNumVal : Option JVal → Bool
  | some (.jnum _) => true
  | _ => false

/-- One iteration of the coercion/validation loop of
`handleFinalizeReservation` (source lines 821-855). -/
def validateField (rawAnswers : JVal) (acc : ValAcc) (f : ReservationField) : ValAcc :=
  let val := coercedVal rawAnswers f
  let clean :=
    if !(isEmptyVal val) then acc.cleanAnswers ++ [(f.field_key, val.getD .jnull)]
    else acc.cleanAnswers
  let missing :=
    if f.required && isEmptyVal val then acc.missingFields ++ [f.label]
    else if !(isEmptyVal val) then
      if f.field_type == "number" && !(isNumVal val) then
        acc.missingFields ++ [f.label ++ " (数値形式)"]
      else if f.field_type == "date" && !(isDateFmt (jsStringOpt val)) then
        acc.missingFields ++ [f.label ++ " (YYYY-MM-DD形式)"]
      else if f.field_type == "time" && !(isTimeFmt (jsStringOpt val)) then
        acc.missingFields ++ [f.label ++ " (HH:mm形式)"]
      else acc.missingFields
    else acc.missingFields
  { missingFields := missing, cleanAnswers := clean }

/-- The whole coercion/validation loop over the enabled fields. -/
def validateAnswers (enabledFields : List ReservationField) (rawAnswers : JVal) : ValAcc :=
  enabledFields.foldl (validateField rawAnswers) ⟨[], []⟩

/-- The entry field `f` contributes to `missing_fields`, if any: its label
when a required field is empty, its label plus a format hint when a present
value fails its type check. -/
def fieldOffense (rawAnswers : JVal) (f : ReservationField) : Option String :=
  let val := coercedVal rawAnswers f
  if f.required && isEmptyVal val then some f.label
  else if !(isEmptyVal val) then
    if f.field_type == "number" && !(isNumVal val) then
      some (f.label ++ " (数値形式)")
    else if f.field_type == "date" && !(isDateFmt (jsStringOpt val)) then
      some (f.label ++ " (YYYY-MM-DD形式)")
    else if f.field_type == "time" && !(isTimeFmt (jsStringOpt val)) then
      some (f.label ++ " (HH:mm形式)")
    else none
  else none

/-- The entry field `f` contributes to `cleanAnswers`, if any. -/
def fieldClean (rawAnswers : JVal) (f : ReservationField) : Option (String × JVal) :=
  let val := coercedVal rawAnswers f
  if !(isEmptyVal val) then some (f.field_key, val.getD .jnull) else none

/-- `answers[key] || args[key] || ''`: the value the persistence loop sees
for `key`. -/
def persistedVal (answers args : JVal) (key : String) : JVal :=
  jsOrOpt (getProp answers key) (jsOrOpt (getProp args key) (.jstr ""))

/-- `getValue` helper: `answers[key] || args[key] || null`. -/
def getValueCanonical (answers args : JVal) (key : String) : JVal :=
  jsOrOpt (getProp answers key) (jsOrOpt (getProp args key) .jnull)

/-- `this.callerNumber || 'Unknown'`. -/
def strOrUnknown : Option String → String
  | some s => if s == "" then "Unknown" else s
  | none => "Unknown"

/-- Fresh primary key handed out by the store on a successful insert,
modelled as a function of the store state. -/
def freshReservationId (db : List ReservationRow) : String :=
  "res-" ++ toString db.length

/-- `const answers = args.answers || {}` at the top of
`insertReservationFromTool`. -/
def answersObjOf (args : JVal) : JVal :=
  jsOrOpt (getProp args "answers") (.jobj [])

/-- The `dbAnswers` record built by the persistence loop over ALL of
`this.reservationFields` (disabled fields included), keyed by `field_key`;
a falsy value falls through the or-chain over `answers[key]` and
`args[key]` to the empty string and is then skipped by the strict
inequality against the empty-string literal. -/
def dbAnswersOf (ctx : SessionCtx) (args : JVal) : List (String × JVal) :=
  ctx.reservationFields.filterMap (fun f =>
    let val := persistedVal (answersObjOf args) args f.field_key
    if isEmptyStrVal val then none else some (f.field_key, val))

/-- The `notificationAnswers` record: same loop, keyed by `label`. -/
def notificationAnswersOf (ctx : SessionCtx) (args : JVal) : List (String × JVal) :=
  ctx.reservationFields.filterMap (fun f =>
    let val := persistedVal (answersObjOf args) args f.field_key
    if isEmptyStrVal val then none else some (f.label, val))

/-- The row handed to `.insert(...)`: canonical columns fall back to
`null`, `customer_name` falls back to the string `'Unknown'`. -/
def insertedRow (ctx : SessionCtx) (uid : String) (args : JVal) : ReservationRow :=
  let answers := answersObjOf args
  { user_id := uid, call_sid := ctx.callSid,
    customer_phone := strOrUnknown ctx.callerNumber,
    customer_name := jsOrV (getValueCanonical answers args "customer_name") (.jstr "Unknown"),
    requested_date := getValueCanonical answers args "requested_date",
    requested_time := getValueCanonical answers args "requested_time",
    party_size := getValueCanonical answers args "party_size",
    status := "pending",
    answers := dbAnswersOf ctx args,
    source := RESERVATION_SOURCE_REALTIME_TOOL }

/-- The payload of the `notificationService.notifyReservation` call: the
canonical keys here are read from the TOP-LEVEL `args`, not from
`answers`, exactly as in the source. -/
def notifPayload (ctx : SessionCtx) (uid : String) (args : JVal) : NotificationPayload :=
  { user_id := uid,
    customer_name := jsOrOpt (getProp args "customer_name") (.jstr "Unknown"),
    customer_phone := strOrUnknown ctx.callerNumber,
    party_size := getProp args "party_size",
    requested_date := getProp args "requested_date",
    requested_time := getProp args "requested_time",
    requested_datetime_text :=
      jsStringOpt (getProp args "requested_date") ++ " "
        ++ jsStringOpt (getProp args "requested_time"),
    answers := notificationAnswersOf ctx args }

/-- `insertReservationFromTool` (source lines 913-1011).  The store's
unique index on `call_sid` is modelled by the duplicate check: an insert
that would collide raises Postgres error 23505, which the source maps to
`{ok: true, deduped: true}` with no notification.  A fresh insert appends
the row, dispatches one notification (fire-and-forget `void` promise in the
source, so its outcome is not an input of the result) and returns
`{ok: true, reservation_id, deduped: false}`. -/
def insertReservationFromTool (ctx : SessionCtx) (args : JVal)
    (db : List ReservationRow) : ToolOutcome :=
  match ctx.userId with
  | none =>
    ⟨{ ok := false, error_type := some "system",
       error_code := some "USER_NOT_IDENTIFIED" }, db, []⟩
  | some uid =>
    if db.any (fun r => r.call_sid == ctx.callSid) then
      ⟨{ ok := true, deduped := some true }, db, []⟩
    else
      ⟨{ ok := true, reservation_id := some (freshReservationId db),
         deduped := some false },
       db ++ [insertedRow ctx uid args], [notifPayload ctx uid args]⟩

/-- `handleFinalizeReservation` (source lines 741-907), as a function of
the parsed tool arguments (`none` models a `JSON.parse` failure) and the
store state.  Event-log records and the trailing `response.create` are
elided; the returned `FinalizeResult` is exactly the object serialized into
the `function_call_output`. -/
def handleFinalizeReservation (ctx : SessionCtx) (parsed : Option JVal)
    (db : List ReservationRow) : ToolOutcome :=
  match parsed with
  | none =>
    ⟨{ ok := false, error_type := some "system",
       error_code := some "PARSE_ERROR" }, db, []⟩
  | some args =>
    let enabledFields := ctx.reservationFields.filter fieldEnabled
    let requiredFields := enabledFields.filter (fun f => f.required)
    if requiredFields.isEmpty then
      ⟨{ ok := false, error_type := some "system",
         error_code := some "NO_REQUIRED_FIELDS" }, db, []⟩
    else
      match getProp args "answers" with
      | some (.jobj l) =>
        if isExactlyTrue (getProp args "confirmed") then
          let v := validateAnswers enabledFields (.jobj l)
          if v.missingFields.isEmpty then
            insertReservationFromTool ctx
              (setProp args "answers" (.jobj v.cleanAnswers)) db
          else
            ⟨{ ok := false, error_type := some "missing_fields",
               missing_fields := some v.missingFields }, db, []⟩
        else
          ⟨{ ok := false, error_type := some "not_confirmed" }, db, []⟩
      | _ =>
        ⟨{ ok := false, error_type := some "system",
           error_code := some "INVALID_ANSWERS_FORMAT" }, db, []⟩

/-- Conversation phase of a call (`greeting → normal`, never back). -/
inductive Phase where
  | greeting
  | normal
deriving Repr, DecidableEq

/-- `config.bargeInMinRemainMs` (default `BARGE_IN_MIN_REMAIN_MS = 2000`). -/
def bargeInMinRemainMs : Nat := 2000

/-- `config.bargeInDebounceMs` (default `BARGE_IN_DEBOUNCE_MS = 1000`). -/
def bargeInDebounceMs : Nat := 1000

/-- Per-call orchestrator state: the playback-tracker counters, barge-in
debounce flags, conversation phase and the one-shot timers of
`RealtimeSession`.  Timers are modelled by flags: `…TimerSet` mirrors the
JS handle being non-`undefined`, `…Armed` means the callback is scheduled
and neither fired nor cancelled (a fire event is only deliverable while
armed).  Transcript, counters used solely for sampled logging, and the
store clients are elided. -/
structure CallState where
  conversationPhase : Phase
  currentAssistantItemId : Option String
  sentMsTotal : Nat
  playedMsTotal : Nat
  lastMarkSentMs : Nat
  markSeq : Nat
  markMap : List (String × Nat)
  clearing : Bool
  isBargeInPending : Bool
  bargeInTimerSet : Bool
  bargeInTimerArmed : Bool
  greetingAudioEndMs : Nat
  sessionUpdateTimerArmed : Bool
  hasRequestedInitialResponse : Bool
  connected : Bool
deriving Repr, DecidableEq

/-- State right after `connect` sent `session.update(greeting)`: fresh
tracker, greeting phase, 3-second session-ready timer armed. -/
def initialCallState : CallState :=
  { conversationPhase := .greeting
    currentAssistantItemId := none
    sentMsTotal := 0
    playedMsTotal := 0
    lastMarkSentMs := 0
    markSeq := 0
    markMap := []
    clearing := false
    isBargeInPending := false
    bargeInTimerSet := false
    bargeInTimerArmed := false
    greetingAudioEndMs := 0
    sessionUpdateTimerArmed := true
    hasRequestedInitialResponse := false
    connected := true }

/-- Events the per-call handler reacts to: realtime-API messages, Twilio
mark acknowledgements, and the two one-shot timer callbacks. -/
inductive CallEvent where
  | sessionUpdated
  | outputItemAdded (itemType : String) (role : String) (id : String)
  | audioDelta (bytes : Nat)
  | responseDone (assistantText : String)
  | speechStarted
  | speechStopped
  | twilioMark (name : Option String)
  | debounceTimerFire
  | sessionUpdateTimerFire
deriving Repr, DecidableEq

/-- Messages the handler emits: audio/mark/clear to Twilio, truncate /
session.update / response.create to the model, NDJSON log records, and a
model-socket close (never emitted by any handler in the source, present so
that its absence is expressible). -/
inductive CallOutput where
  | audioToTwilio (bytes : Nat)
  | markToTwilio (name : String)
  | clearTwilio
  | sendTruncate (item_id : String) (content_index : Nat) (audio_end_ms : Nat)
  | sessionUpdateSent (phase : Phase)
  | sendResponseCreate
  | logEvent (name : String)
  | closeModelSocket
deriving Repr, DecidableEq

/-- `Map.get` on the mark map (mark names are unique per utterance). -/
def mapGet (l : List (String × Nat)) (k : String) : Option Nat :=
  ((l.filter (fun p => p.1 == k)).getLast?).map Prod.snd

/-- `Map.set`. -/
def mapSet (l : List (String × Nat)) (k : String) (v : Nat) : List (String × Nat) :=
  l.filter (fun p => p.1 != k) ++ [(k, v)]

/-- `Map.delete`. -/
def mapDelete (l : List (String × Nat)) (k : String) : List (String × Nat) :=
  l.filter (fun p => p.1 != k)

/-- `Math.round(bytes * 1000 / 8000)` for a byte count: the real quotient
has denominator 8 (exactly representable), and `Math.round` is
floor-of-plus-half, so this is `⌊bytes/8 + 1/2⌋`. -/
def mulawBytesToMs (bytes : Nat) : Nat :=
  (bytes * 1000 + 4000) / 8000

/-- `sendSessionUpdate(phase)` (source lines 338-427): records the phase,
emits the `session.update` payload and its log record, and arms the
3-second `session.updated` ACK timer. -/
def sendSessionUpdateFn (s : CallState) (phase : Phase) : CallState × List CallOutput :=
  ({ s with conversationPhase := phase, sessionUpdateTimerArmed := true },
   [.sessionUpdateSent phase, .logEvent "session_update_sent"])

/-- `session.updated` handler (source lines 518-545): cancel the ACK
timer; on first receipt request the greeting response. -/
def onSessionUpdated (s : CallState) : CallState × List CallOutput :=
  let s1 := { s with sessionUpdateTimerArmed := false }
  if s.hasRequestedInitialResponse then
    (s1, [.logEvent "session_updated_received"])
  else
    ({ s1 with hasRequestedInitialResponse := true },
     [.logEvent "session_updated_received", .sendResponseCreate,
      .logEvent "response_create_sent"])

/-- `response.output_item.added` handler (source lines 550-564): a new
assistant message resets the playback tracker and the clearing flag. -/
def onOutputItemAdded (s : CallState) (itemType role id : String) :
    CallState × List CallOutput :=
  if itemType == "message" && role == "assistant" then
    ({ s with currentAssistantItemId := some id, sentMsTotal := 0,
              playedMsTotal := 0, lastMarkSentMs := 0, markSeq := 0,
              markMap := [], clearing := false }, [])
  else (s, [])

/-- Audio-delta handler (source lines 566-600): forward the audio, account
`sentMs`, and emit a playback mark every 300 ms of sent audio. -/
def onAudioDelta (s : CallState) (bytes : Nat) : CallState × List CallOutput :=
  let sent := s.sentMsTotal + mulawBytesToMs bytes
  let s1 := { s with sentMsTotal := sent }
  match s.currentAssistantItemId with
  | some iid =>
    if sent - s.lastMarkSentMs ≥ 300 then
      let seq := s.markSeq + 1
      let name := "a:" ++ iid ++ ":ms:" ++ toString sent ++ ":seq:" ++ toString seq
      ({ s1 with markSeq := seq, markMap := mapSet s1.markMap name sent,
                 lastMarkSentMs := sent },
       [.audioToTwilio bytes, .markToTwilio name])
    else (s1, [.audioToTwilio bytes])
  | none => (s1, [.audioToTwilio bytes])

/-- `response.done` handler, text part (source lines 603-639): when the
response carried assistant text during the greeting phase, record the
greeting's `sentMs` for the playback-complete check.  Function-call items
are dispatched to `handleFinalizeReservation`, modelled separately. -/
def onResponseDone (s : CallState) (assistantText : String) :
    CallState × List CallOutput :=
  if jsTrim assistantText != "" then
    if s.conversationPhase == Phase.greeting then
      ({ s with greetingAudioEndMs := s.sentMsTotal }, [.logEvent "assistant_response"])
    else (s, [.logEvent "assistant_response"])
  else (s, [])

/-- `speech_started` handler (source lines 659-695): ignored during the
greeting phase; ignored when fewer than `bargeInMinRemainMs` of audio
remain unplayed; otherwise (re)start the debounce timer. -/
def onSpeechStarted (s : CallState) : CallState × List CallOutput :=
  if s.conversationPhase == Phase.greeting then
    (s, [.logEvent "vad_event", .logEvent "barge_in_ignored"])
  else if s.sentMsTotal - s.playedMsTotal < bargeInMinRemainMs then
    (s, [.logEvent "vad_event", .logEvent "barge_in_ignored"])
  else
    ({ s with isBargeInPending := true, bargeInTimerSet := true,
              bargeInTimerArmed := true },
     [.logEvent "vad_event"])

/-- `speech_stopped` handler (source lines 697-709): cancel a pending
debounce timer (noise rejection). -/
def onSpeechStopped (s : CallState) : CallState × List CallOutput :=
  if s.isBargeInPending && s.bargeInTimerSet then
    ({ s with bargeInTimerSet := false, bargeInTimerArmed := false,
              isBargeInPending := false },
     [.logEvent "vad_event", .logEvent "barge_in_cancelled"])
  else (s, [.logEvent "vad_event"])

/-- `confirmBargeIn` (source lines 1019-1038): set `clearing` first, clear
Twilio's buffer, and truncate the active assistant item at `playedMs`. -/
def confirmBargeIn (s : CallState) : CallState × List CallOutput :=
  let s1 := { s with clearing := true }
  match s.currentAssistantItemId with
  | some iid => (s1, [.clearTwilio, .sendTruncate iid 0 s.playedMsTotal])
  | none => (s1, [.clearTwilio])

/-- Debounce-timer callback (source lines 687-694): if still pending,
confirm the barge-in; always drop the pending flag. -/
def onDebounceTimerFire (s : CallState) : CallState × List CallOutput :=
  let s0 := { s with bargeInTimerArmed := false }
  if s.isBargeInPending then
    let r := confirmBargeIn s0
    ({ r.1 with isBargeInPending := false }, [.logEvent "barge_in_confirmed"] ++ r.2)
  else ({ s0 with isBargeInPending := false }, [])

/-- Twilio `mark` handler `onTwilioMark` (source lines 1261-1299): a known
mark bumps `playedMs` when not clearing, may complete the greeting (90% of
`greetingAudioEndMs` played switches the session to normal phase), and is
removed from the map; marks during clearing are discarded. -/
def onTwilioMark (s : CallState) (name : Option String) : CallState × List CallOutput :=
  match name with
  | none => (s, [])
  | some nm =>
    match mapGet s.markMap nm with
    | none => (s, [])
    | some endMs =>
      if s.clearing then
        ({ s with markMap := mapDelete s.markMap nm }, [])
      else
        let played := max s.playedMsTotal endMs
        let s1 := { s with playedMsTotal := played }
        if s.conversationPhase == Phase.greeting && s.greetingAudioEndMs > 0
            && played * 10 ≥ s.greetingAudioEndMs * 9 then
          let r := sendSessionUpdateFn s1 Phase.normal
          ({ r.1 with greetingAudioEndMs := 0, markMap := mapDelete r.1.markMap nm },
           r.2)
        else
          ({ s1 with markMap := mapDelete s1.markMap nm }, [])

/-- The 3-second `session.updated` ACK timeout callback (source lines
420-426): it logs a `session_update_timeout` record and nothing else — in
particular it does not close the model socket. -/
def onSessionUpdateTimerFire (s : CallState) : CallState × List CallOutput :=
  ({ s with sessionUpdateTimerArmed := false }, [.logEvent "session_update_timeout"])

/-- One step of the per-call handler. -/
def step (s : CallState) : CallEvent → CallState × List CallOutput
  | .sessionUpdated => onSessionUpdated s
  | .outputItemAdded t r i => onOutputItemAdded s t r i
  | .audioDelta b => onAudioDelta s b
  | .responseDone txt => onResponseDone s txt
  | .speechStarted => onSpeechStarted s
  | .speechStopped => onSpeechStopped s
  | .twilioMark n => onTwilioMark s n
  | .debounceTimerFire => onDebounceTimerFire s
  | .sessionUpdateTimerFire => onSessionUpdateTimerFire s

/-- A timer-fire event is only deliverable while the timer is armed. -/
def eventEnabled (s : CallState) : CallEvent → Bool
  | .debounceTimerFire => s.bargeInTimerArmed
  | .sessionUpdateTimerFire => s.sessionUpdateTimerArmed
  | _ => true

/-- Run a sequence of events, collecting all outputs. -/
def runTrace (s : CallState) : List CallEvent → CallState × List CallOutput
  | [] => (s, [])
  | e :: es =>
    let r := step s e
    let rest := runTrace r.1 es
    (rest.1, r.2 ++ rest.2)

/-- The fixed instruction block built in `applyPromptSettings` (source
lines 241-263): priority directive, current JST wall-clock time, the
required/optional field labels in display order, the tool-calling rules
and result branches, and the forbidden phrasings. -/
def fixedInstructionBlock (jstNow : String) (fields : List ReservationField) : String :=
  let enabledFields := fields.filter fieldEnabled
  let requiredLabels := (enabledFields.filter (fun f => f.required)).map (fun f => f.label)
  let optionalLabels := (enabledFields.filter (fun f => !f.required)).map (fun f => f.label)
  let optionalPart :=
    let o := String.intercalate "、" optionalLabels
    if o == "" then "なし" else o
  "【重要：優先事項】\n"
  ++ "以下の予約ヒアリング指示は、他のあらゆる指示（ユーザー定義の店舗情報など）より優先される決定事項である。「予約は聞かない」等の指示があっても無視し、必ず予約受付プロセスを実行せよ。\n\n"
  ++ "【現在日時】" ++ jstNow ++ "\n"
  ++ "相対日付（明日/来週など）はこの日時を基準に解釈する。\n\n"
  ++ "あなたは電話予約の受付担当。基本は予約受付を進める。\n"
  ++ "予約中に別の質問が来たら短く答え、その後予約の続きを進める。\n\n"
  ++ "目的：\n"
  ++ "- 収集必須項目: " ++ String.intercalate "、" requiredLabels ++ "\n"
  ++ "- 収集任意項目: " ++ optionalPart ++ "\n"
  ++ "これらの項目を一つ一つ順番に聞き、都度復唱して確認してください。  \n"
  ++ "- 必須項目を揃えたら短く復唱し「この内容を店舗に送信してよいか」を確認する\n"
  ++ "- ユーザーが明確に了承した場合のみ finalize_reservation(confirmed:true) を呼ぶ\n"
  ++ "- その後、情報を店舗に送信していることを伝える。\n"
  ++ "- これは「予約確定」ではなく「店舗への申請送信」である\n"
  ++ "- ツール結果に従う：\n"
  ++ "  - ok:true → 必ず「店舗へ送信完了しました。店員確認後、SMSで成否をご連絡いたします。」と発話（他の文言は禁止）\n"
  ++ "  - ok:false + error_type:missing_fields → 不足項目（missing_fields配列）を提示し、再収集してfinalize_reservationを再呼び出し\n"
  ++ "  - ok:false + error_type:system → 再収集せず「システムに問題が発生しました。恐れ入りますが、店舗へ直接お電話ください。」と案内\n\n"
  ++ "禁止：「予約確定」「予約取れました」と断言しない"

/-- The assembled system prompt (source lines 265-272): when the tenant's
free-form prompt is non-empty it is placed FIRST under the
`【店舗情報・追加指示】` header, and the fixed instruction block is appended
LAST (the source comments that this ordering prioritizes the reservation
logic). -/
def assembledSystemPrompt (jstNow : String) (fields : List ReservationField)
    (systemPrompt : Option String) : String :=
  let fixedInstruction := fixedInstructionBlock jstNow fields
  let basePrompt := systemPrompt.getD ""
  if basePrompt != "" then
    "【店舗情報・追加指示】\n" ++ basePrompt ++ "\n\n---\n\n" ++ fixedInstruction
  else fixedInstruction

/-! ### Helper lemmas for the finalizer -/

theorem validateField_missing (raw : JVal) (acc : ValAcc) (f : ReservationField) :
    (validateField raw acc f).missingFields
      = acc.missingFields ++ (fieldOffense raw f).toList := by
  simp only [validateField, fieldOffense]
  repeat' split
  all_goals simp_all

theorem validateAnswers_foldl (raw : JVal) (fs : List ReservationField) (acc : ValAcc) :
    (fs.foldl (validateField raw) acc).missingFields
      = acc.missingFields ++ fs.filterMap (fieldOffense raw) := by
  induction fs generalizing acc with
  | nil => simp
  | cons f fs ih =>
    simp only [List.foldl_cons, List.filterMap_cons]
    rw [ih]
    cases h : fieldOffense raw f <;> simp [validateField_missing, h]

theorem validateAnswers_missing (fs : List ReservationField) (raw : JVal) :
    (validateAnswers fs raw).missingFields = fs.filterMap (fieldOffense raw) := by
  simpa [validateAnswers] using validateAnswers_foldl raw fs ⟨[], []⟩

/-- A concrete session context (default four required fields) used by the
witnesses and counterexamples below. -/
def ctxW : SessionCtx :=
  { userId := some "u1", callSid := "CA1", callerNumber := some "+819012345678",
    reservationFields := DEFAULT_RESERVATION_FIELDS }

/-! ### C1: consent law -/

/-- C1 (amended): for every `finalize_reservation` call whose `confirmed`
argument is not exactly the boolean `true`, no reservation row is persisted
and no notification is dispatched (store state unchanged); and provided at
least one required field is configured and `answers` passes the structural
check (a non-array object), the function-call output returned to the model
is `{ok: false, error_type: "not_confirmed"}`. -/
theorem consent_law (ctx : SessionCtx) (args : JVal) (db : List ReservationRow)
    (hc : isExactlyTrue (getProp args "confirmed") = false) :
    (handleFinalizeReservation ctx (some args) db).db = db
    ∧ (handleFinalizeReservation ctx (some args) db).notifications = []
    ∧ ((((ctx.reservationFields.filter fieldEnabled).filter (fun f => f.required)).isEmpty
          = false) →
        (∃ l, getProp args "answers" = some (JVal.jobj l)) →
        (handleFinalizeReservation ctx (some args) db).result
          = { ok := false, error_type := some "not_confirmed" }) := by
  simp only [handleFinalizeReservation]
  split
  · exact ⟨rfl, rfl, by simp_all⟩
  · split
    · simp [hc]
    · exact ⟨rfl, rfl, by simp_all⟩

/-- C1 (counterexample to the claim as stated): with the default field
configuration, an unconfirmed call whose `answers` is an array yields
`{ok: false, error_type: "system", error_code: "INVALID_ANSWERS_FORMAT"}`,
not `{ok: false, error_type: "not_confirmed"}` — the structural check
precedes the consent check. -/
theorem consent_law_counterexample :
    isExactlyTrue (getProp (JVal.jobj [("answers", JVal.jarr []),
        ("confirmed", JVal.jbool false)]) "confirmed") = false
    ∧ (handleFinalizeReservation ctxW
        (some (JVal.jobj [("answers", JVal.jarr []), ("confirmed", JVal.jbool false)]))
        []).result
      = { ok := false, error_type := some "system",
          error_code := some "INVALID_ANSWERS_FORMAT" }
    ∧ ({ ok := false, error_type := some "system",
         error_code := some "INVALID_ANSWERS_FORMAT" } : FinalizeResult)
      ≠ { ok := false, error_type := some "not_confirmed" } := by
  exact ⟨rfl, rfl, by decide⟩

/-- C1 (witness): the amended theorem applied at scenario 2 of the spec
(an unconfirmed call with a well-formed `answers` object): zero rows,
result `not_confirmed`. -/
theorem consent_law_witness :
    isExactlyTrue (getProp (JVal.jobj [("answers",
        JVal.jobj [("customer_name", JVal.jstr "田中")]),
        ("confirmed", JVal.jbool false)]) "confirmed") = false
    ∧ (handleFinalizeReservation ctxW
        (some (JVal.jobj [("answers", JVal.jobj [("customer_name", JVal.jstr "田中")]),
          ("confirmed", JVal.jbool false)])) []).db = []
    ∧ (handleFinalizeReservation ctxW
        (some (JVal.jobj [("answers", JVal.jobj [("customer_name", JVal.jstr "田中")]),
          ("confirmed", JVal.jbool false)])) []).result
      = { ok := false, error_type := some "not_confirmed" } :=
  ⟨rfl,
   (consent_law ctxW (JVal.jobj [("answers", JVal.jobj [("customer_name", JVal.jstr "田中")]),
      ("confirmed", JVal.jbool false)]) [] rfl).1,
   (consent_law ctxW (JVal.jobj [("answers", JVal.jobj [("customer_name", JVal.jstr "田中")]),
      ("confirmed", JVal.jbool false)]) [] rfl).2.2 rfl
     ⟨[("customer_name", JVal.jstr "田中")], rfl⟩⟩

/-! ### C3: missing-field validation -/

/-- C3: for a confirmed call (with required fields configured and a
well-formed `answers` object), when the per-field coercion over the
enabled fields leaves some required field missing or some present value
failing its type check, no row is persisted, no notification is sent, and
the result is `{ok: false, error_type: "missing_fields"}` whose
`missing_fields` lists exactly the offending fields' labels (a format hint
appended for type errors), in field order. -/
theorem missing_fields_law (ctx : SessionCtx) (args : JVal) (l : List (String × JVal))
    (db : List ReservationRow)
    (hreq : (((ctx.reservationFields.filter fieldEnabled).filter
        (fun f => f.required)).isEmpty = false))
    (hans : getProp args "answers" = some (JVal.jobj l))
    (hc : isExactlyTrue (getProp args "confirmed") = true)
    (hmiss : (ctx.reservationFields.filter fieldEnabled).filterMap
        (fieldOffense (JVal.jobj l)) ≠ []) :
    (handleFinalizeReservation ctx (some args) db).db = db
    ∧ (handleFinalizeReservation ctx (some args) db).notifications = []
    ∧ (handleFinalizeReservation ctx (some args) db).result
        = { ok := false, error_type := some "missing_fields",
            missing_fields := some ((ctx.reservationFields.filter fieldEnabled).filterMap
              (fieldOffense (JVal.jobj l))) } := by
  have hne : (((ctx.reservationFields.filter fieldEnabled).filterMap
      (fieldOffense (JVal.jobj l))).isEmpty) = false := by
    simpa [List.isEmpty_iff] using hmiss
  simp only [handleFinalizeReservation, hreq, hans, hc,
    validateAnswers_missing, hne, Bool.false_eq_true, if_false, if_true]
  exact ⟨trivial, trivial, trivial⟩

/-- C3 (witness): scenario 3 of the spec — `requested_time` absent from an
otherwise complete confirmed call: zero rows and
`missing_fields = ["希望時間"]`. -/
theorem missing_fields_law_witness :
    ((((ctxW.reservationFields.filter fieldEnabled).filter
        (fun f => f.required)).isEmpty = false))
    ∧ ((ctxW.reservationFields.filter fieldEnabled).filterMap
        (fieldOffense (JVal.jobj [("customer_name", JVal.jstr "田中"),
          ("party_size", JVal.jnum 2), ("requested_date", JVal.jstr "2025-12-20")]))
        = ["希望時間"])
    ∧ (handleFinalizeReservation ctxW
        (some (JVal.jobj [("answers", JVal.jobj [("customer_name", JVal.jstr "田中"),
          ("party_size", JVal.jnum 2), ("requested_date", JVal.jstr "2025-12-20")]),
          ("confirmed", JVal.jbool true)])) []).db = []
    ∧ (handleFinalizeReservation ctxW
        (some (JVal.jobj [("answers", JVal.jobj [("customer_name", JVal.jstr "田中"),
          ("party_size", JVal.jnum 2), ("requested_date", JVal.jstr "2025-12-20")]),
          ("confirmed", JVal.jbool true)])) []).result
      = { ok := false, error_type := some "missing_fields",
          missing_fields := some ["希望時間"] } :=
  ⟨rfl, by decide,
   (missing_fields_law ctxW
     (JVal.jobj [("answers", JVal.jobj [("customer_name", JVal.jstr "田中"),
       ("party_size", JVal.jnum 2), ("requested_date", JVal.jstr "2025-12-20")]),
       ("confirmed", JVal.jbool true)])
     [("customer_name", JVal.jstr "田中"), ("party_size", JVal.jnum 2),
       ("requested_date", JVal.jstr "2025-12-20")]
     [] rfl rfl rfl (by decide)).1,
   ((missing_fields_law ctxW
     (JVal.jobj [("answers", JVal.jobj [("customer_name", JVal.jstr "田中"),
       ("party_size", JVal.jnum 2), ("requested_date", JVal.jstr "2025-12-20")]),
       ("confirmed", JVal.jbool true)])
     [("customer_name", JVal.jstr "田中"), ("party_size", JVal.jnum 2),
       ("requested_date", JVal.jstr "2025-12-20")]
     [] rfl rfl rfl (by decide)).2.2).trans (by decide)⟩

/-! ### C2: idempotence of finalize -/

theorem handle_validated (ctx : SessionCtx) (args : JVal) (l : List (String × JVal))
    (db : List ReservationRow)
    (hreq : (((ctx.reservationFields.filter fieldEnabled).filter
        (fun f => f.required)).isEmpty = false))
    (hans : getProp args "answers" = some (JVal.jobj l))
    (hc : isExactlyTrue (getProp args "confirmed") = true)
    (hmiss : (ctx.reservationFields.filter fieldEnabled).filterMap
        (fieldOffense (JVal.jobj l)) = []) :
    handleFinalizeReservation ctx (some args) db
      = insertReservationFromTool ctx
          (setProp args "answers" (JVal.jobj (validateAnswers
            (ctx.reservationFields.filter fieldEnabled) (JVal.jobj l)).cleanAnswers)) db := by
  have hne : (((ctx.reservationFields.filter fieldEnabled).filterMap
      (fieldOffense (JVal.jobj l))).isEmpty) = true := by simp [hmiss]
  simp only [handleFinalizeReservation, hreq, hans, hc,
    validateAnswers_missing, hne, Bool.false_eq_true, if_false, if_true]

theorem insert_fresh (ctx : SessionCtx) (uid : String) (args : JVal)
    (db : List ReservationRow) (hu : ctx.userId = some uid)
    (hfresh : db.any (fun r => r.call_sid == ctx.callSid) = false) :
    insertReservationFromTool ctx args db
      = ⟨{ ok := true, reservation_id := some (freshReservationId db),
           deduped := some false },
         db ++ [insertedRow ctx uid args], [notifPayload ctx uid args]⟩ := by
  simp [insertReservationFromTool, hu, hfresh]

theorem insert_dup (ctx : SessionCtx) (uid : String) (args : JVal)
    (db : List ReservationRow) (hu : ctx.userId = some uid)
    (hdup : db.any (fun r => r.call_sid == ctx.callSid) = true) :
    insertReservationFromTool ctx args db
      = ⟨{ ok := true, deduped := some true }, db, []⟩ := by
  simp [insertReservationFromTool, hu, hdup]

/-- C2: two `finalize_reservation` calls for the same `callId` that both
pass validation insert exactly one reservation row.  The fresh insert
returns `{ok: true, reservation_id, deduped: false}` and dispatches
exactly one notification (emitted fire-and-forget, so the tool result does
not depend on its outcome); the duplicate hits the unique-key check on
`call_sid`, returns `{ok: true, deduped: true}`, dispatches nothing and
leaves the store unchanged, which afterwards holds exactly one row for the
`callId`. -/
theorem finalize_idempotence (ctx : SessionCtx) (uid : String)
    (a1 a2 : JVal) (l1 l2 : List (String × JVal)) (db : List ReservationRow)
    (hu : ctx.userId = some uid)
    (hfresh : db.any (fun r => r.call_sid == ctx.callSid) = false)
    (hreq : (((ctx.reservationFields.filter fieldEnabled).filter
        (fun f => f.required)).isEmpty = false))
    (hans1 : getProp a1 "answers" = some (JVal.jobj l1))
    (hc1 : isExactlyTrue (getProp a1 "confirmed") = true)
    (hmiss1 : (ctx.reservationFields.filter fieldEnabled).filterMap
        (fieldOffense (JVal.jobj l1)) = [])
    (hans2 : getProp a2 "answers" = some (JVal.jobj l2))
    (hc2 : isExactlyTrue (getProp a2 "confirmed") = true)
    (hmiss2 : (ctx.reservationFields.filter fieldEnabled).filterMap
        (fieldOffense (JVal.jobj l2)) = []) :
    ((handleFinalizeReservation ctx (some a1) db).result.ok = true
      ∧ (handleFinalizeReservation ctx (some a1) db).result.deduped = some false
      ∧ (handleFinalizeReservation ctx (some a1) db).result.reservation_id
          = some (freshReservationId db)
      ∧ (handleFinalizeReservation ctx (some a1) db).notifications.length = 1)
    ∧ ((handleFinalizeReservation ctx (some a2)
          (handleFinalizeReservation ctx (some a1) db).db).result
        = { ok := true, deduped := some true }
      ∧ (handleFinalizeReservation ctx (some a2)
          (handleFinalizeReservation ctx (some a1) db).db).notifications = []
      ∧ (handleFinalizeReservation ctx (some a2)
          (handleFinalizeReservation ctx (some a1) db).db).db
        = (handleFinalizeReservation ctx (some a1) db).db)
    ∧ ((handleFinalizeReservation ctx (some a2)
          (handleFinalizeReservation ctx (some a1) db).db).db.filter
        (fun r => r.call_sid == ctx.callSid)).length = 1 := by
  have h1 : handleFinalizeReservation ctx (some a1) db
      = ⟨{ ok := true, reservation_id := some (freshReservationId db),
           deduped := some false },
         db ++ [insertedRow ctx uid (setProp a1 "answers" (JVal.jobj (validateAnswers
           (ctx.reservationFields.filter fieldEnabled) (JVal.jobj l1)).cleanAnswers))],
         [notifPayload ctx uid (setProp a1 "answers" (JVal.jobj (validateAnswers
           (ctx.reservationFields.filter fieldEnabled) (JVal.jobj l1)).cleanAnswers))]⟩ := by
    rw [handle_validated ctx a1 l1 db hreq hans1 hc1 hmiss1,
      insert_fresh ctx uid _ db hu hfresh]
  have hdup : ((handleFinalizeReservation ctx (some a1) db).db).any
      (fun r => r.call_sid == ctx.callSid) = true := by
    rw [h1]
    simp [insertedRow]
  have h2 : handleFinalizeReservation ctx (some a2)
      (handleFinalizeReservation ctx (some a1) db).db
      = ⟨{ ok := true, deduped := some true },
         (handleFinalizeReservation ctx (some a1) db).db, []⟩ := by
    rw [handle_validated ctx a2 l2 _ hreq hans2 hc2 hmiss2,
      insert_dup ctx uid _ _ hu hdup]
  have hdbfilter : ∀ r ∈ db, (r.call_sid == ctx.callSid) = false := by
    intro r hr
    by_contra hne
    have : db.any (fun r => r.call_sid == ctx.callSid) = true :=
      List.any_eq_true.mpr ⟨r, hr, by simpa using hne⟩
    simp [this] at hfresh
  refine ⟨?_, ?_, ?_⟩
  · rw [h1]
    exact ⟨rfl, rfl, rfl, rfl⟩
  · rw [h2]
    exact ⟨rfl, rfl, rfl⟩
  · rw [h2]
    rw [h1]
    simp only [List.filter_append]
    rw [List.filter_eq_nil_iff.mpr (by intro r hr; simp [hdbfilter r hr])]
    simp [insertedRow]

/-- Scenario-1 tool arguments (complete, confirmed) used by witnesses. -/
def argsHappyW : JVal :=
  JVal.jobj [("answers", JVal.jobj [("customer_name", JVal.jstr "田中"),
    ("party_size", JVal.jnum 2), ("requested_date", JVal.jstr "2025-12-20"),
    ("requested_time", JVal.jstr "19:00")]), ("confirmed", JVal.jbool true)]

/-- The `answers` object of `argsHappyW`. -/
def answersHappyW : List (String × JVal) :=
  [("customer_name", JVal.jstr "田中"), ("party_size", JVal.jnum 2),
   ("requested_date", JVal.jstr "2025-12-20"), ("requested_time", JVal.jstr "19:00")]

/-- C2 (witness): scenario 4 of the spec at a concrete input — two
identical validated finalize calls against an empty store: first returns
`deduped: false` with one notification, second returns
`{ok: true, deduped: true}` with none, and one row remains. -/
theorem finalize_idempotence_witness :
    ((ctxW.reservationFields.filter fieldEnabled).filterMap
        (fieldOffense (JVal.jobj answersHappyW)) = [])
    ∧ (((handleFinalizeReservation ctxW (some argsHappyW) []).result.ok = true
      ∧ (handleFinalizeReservation ctxW (some argsHappyW) []).result.deduped = some false
      ∧ (handleFinalizeReservation ctxW (some argsHappyW) []).result.reservation_id
          = some (freshReservationId [])
      ∧ (handleFinalizeReservation ctxW (some argsHappyW) []).notifications.length = 1)
    ∧ ((handleFinalizeReservation ctxW (some argsHappyW)
          (handleFinalizeReservation ctxW (some argsHappyW) []).db).result
        = { ok := true, deduped := some true }
      ∧ (handleFinalizeReservation ctxW (some argsHappyW)
          (handleFinalizeReservation ctxW (some argsHappyW) []).db).notifications = []
      ∧ (handleFinalizeReservation ctxW (some argsHappyW)
          (handleFinalizeReservation ctxW (some argsHappyW) []).db).db
        = (handleFinalizeReservation ctxW (some argsHappyW) []).db)
    ∧ ((handleFinalizeReservation ctxW (some argsHappyW)
          (handleFinalizeReservation ctxW (some argsHappyW) []).db).db.filter
        (fun r => r.call_sid == ctxW.callSid)).length = 1) :=
  ⟨by decide,
   finalize_idempotence ctxW "u1" argsHappyW argsHappyW answersHappyW answersHappyW []
     rfl rfl rfl rfl rfl (by decide) rfl rfl (by decide)⟩

/-! ### C10: falsy values dropped at persistence time -/

/-- The value is `undefined` or JS-falsy. -/
def optFalsy (v : Option JVal) : Bool :=
  match v with
  | none => true
  | some w => !(jsTruthy w)

theorem jsOrOpt_falsy {a : Option JVal} {b : JVal} (h : optFalsy a = true) :
    jsOrOpt a b = b := by
  cases a with
  | none => rfl
  | some w => simp_all [jsOrOpt, optFalsy]

theorem dbAnswers_key_not_mem (ctx : SessionCtx) (args : JVal) (key : String)
    (h : isEmptyStrVal (persistedVal (answersObjOf args) args key) = true) :
    key ∉ (dbAnswersOf ctx args).map Prod.fst := by
  intro hmem
  rw [List.mem_map] at hmem
  obtain ⟨p, hp, hfst⟩ := hmem
  rw [dbAnswersOf, List.mem_filterMap] at hp
  obtain ⟨f, _, hf⟩ := hp
  by_cases he : isEmptyStrVal (persistedVal (answersObjOf args) args f.field_key) = true
  · simp [he] at hf
  · simp only [Bool.not_eq_true] at he
    simp only [he, Bool.false_eq_true, if_false, Option.some.injEq] at hf
    have : f.field_key = key := by
      have := congrArg Prod.fst hf
      simpa [hfst] using this.trans hfst
    rw [this, h] at he
    exact Bool.noConfusion he

theorem notifAnswers_label_not_mem (ctx : SessionCtx) (args : JVal) (lab : String)
    (h : ∀ g ∈ ctx.reservationFields, g.label = lab →
      isEmptyStrVal (persistedVal (answersObjOf args) args g.field_key) = true) :
    lab ∉ (notificationAnswersOf ctx args).map Prod.fst := by
  intro hmem
  rw [List.mem_map] at hmem
  obtain ⟨p, hp, hfst⟩ := hmem
  rw [notificationAnswersOf, List.mem_filterMap] at hp
  obtain ⟨f, hfmem, hf⟩ := hp
  by_cases he : isEmptyStrVal (persistedVal (answersObjOf args) args f.field_key) = true
  · simp [he] at hf
  · have hlab : f.label = lab := by
      simp only [Bool.not_eq_true] at he
      simp only [he, Bool.false_eq_true, if_false, Option.some.injEq] at hf
      have := congrArg Prod.fst hf
      simpa [hfst] using this.trans hfst
    exact he (h f hfmem hlab)

/-- C10: when a validated `finalize_reservation` call reaches persistence,
any answer that is falsy at persistence time is silently dropped: a value
equal to the number `0` or the empty string (with nothing at the top level
of `args` to fall back on) is omitted from the persisted `answers` map and
from the notification payload; the canonical columns `party_size`,
`requested_date` and `requested_time` fall back to `null` when their
lookups are falsy; and a missing or falsy `customer_name` is persisted as
the literal string `"Unknown"`. -/
theorem falsy_answers_dropped (ctx : SessionCtx) (uid : String) (args : JVal)
    (db : List ReservationRow)
    (hu : ctx.userId = some uid)
    (hfresh : db.any (fun r => r.call_sid == ctx.callSid) = false) :
    (insertReservationFromTool ctx args db
      = ⟨{ ok := true, reservation_id := some (freshReservationId db),
           deduped := some false },
         db ++ [insertedRow ctx uid args], [notifPayload ctx uid args]⟩)
    ∧ (∀ key,
        (getProp (answersObjOf args) key = some (JVal.jnum 0)
          ∨ getProp (answersObjOf args) key = some (JVal.jstr "")) →
        optFalsy (getProp args key) = true →
        key ∉ (insertedRow ctx uid args).answers.map Prod.fst)
    ∧ (∀ lab,
        (∀ g ∈ ctx.reservationFields, g.label = lab →
          isEmptyStrVal (persistedVal (answersObjOf args) args g.field_key) = true) →
        lab ∉ (notifPayload ctx uid args).answers.map Prod.fst)
    ∧ (optFalsy (getProp (answersObjOf args) "party_size") = true →
        optFalsy (getProp args "party_size") = true →
        (insertedRow ctx uid args).party_size = JVal.jnull)
    ∧ (optFalsy (getProp (answersObjOf args) "requested_date") = true →
        optFalsy (getProp args "requested_date") = true →
        (insertedRow ctx uid args).requested_date = JVal.jnull)
    ∧ (optFalsy (getProp (answersObjOf args) "requested_time") = true →
        optFalsy (getProp args "requested_time") = true →
        (insertedRow ctx uid args).requested_time = JVal.jnull)
    ∧ (optFalsy (getProp (answersObjOf args) "customer_name") = true →
        optFalsy (getProp args "customer_name") = true →
        (insertedRow ctx uid args).customer_name = JVal.jstr "Unknown") := by
  refine ⟨insert_fresh ctx uid args db hu hfresh, ?_, ?_, ?_, ?_, ?_, ?_⟩
  · intro key hv hargs
    have h2 : jsOrOpt (getProp args key) (JVal.jstr "") = JVal.jstr "" :=
      jsOrOpt_falsy hargs
    have houter : ∀ v : JVal, jsTruthy v = false → ∀ b, jsOrOpt (some v) b = b := by
      intro v hv b
      simp [jsOrOpt, hv]
    have hpers : isEmptyStrVal (persistedVal (answersObjOf args) args key) = true := by
      rcases hv with hv | hv <;>
      · simp only [persistedVal, hv]
        rw [houter _ (by decide), h2]
        rfl
    exact dbAnswers_key_not_mem ctx args key hpers
  · intro lab hl
    exact notifAnswers_label_not_mem ctx args lab hl
  · intro h1 h2
    simp [insertedRow, getValueCanonical, jsOrOpt_falsy h1, jsOrOpt_falsy h2]
  · intro h1 h2
    simp [insertedRow, getValueCanonical, jsOrOpt_falsy h1, jsOrOpt_falsy h2]
  · intro h1 h2
    simp [insertedRow, getValueCanonical, jsOrOpt_falsy h1, jsOrOpt_falsy h2]
  · intro h1 h2
    simp [insertedRow, getValueCanonical, jsOrV, jsOrOpt_falsy h1, jsOrOpt_falsy h2,
      jsTruthy]

/-- Validated arguments whose `party_size` answer is the number `0`. -/
def argsZeroW : JVal :=
  JVal.jobj [("answers", JVal.jobj [("customer_name", JVal.jstr "田中"),
    ("party_size", JVal.jnum 0), ("requested_date", JVal.jstr "2025-12-20"),
    ("requested_time", JVal.jstr "19:00")]), ("confirmed", JVal.jbool true)]

/-- C10 (witness): with `party_size = 0` in the answers, the persisted row
omits `party_size` from the answers map, the notification payload omits
its label, and the canonical column is null. -/
theorem falsy_answers_dropped_witness :
    (ctxW.userId = some "u1")
    ∧ (getProp (answersObjOf argsZeroW) "party_size" = some (JVal.jnum 0))
    ∧ "party_size" ∉ (insertedRow ctxW "u1" argsZeroW).answers.map Prod.fst
    ∧ "人数" ∉ (notifPayload ctxW "u1" argsZeroW).answers.map Prod.fst
    ∧ (insertedRow ctxW "u1" argsZeroW).party_size = JVal.jnull
    ∧ (insertReservationFromTool ctxW argsZeroW []
        = ⟨{ ok := true, reservation_id := some (freshReservationId []),
             deduped := some false },
           [insertedRow ctxW "u1" argsZeroW], [notifPayload ctxW "u1" argsZeroW]⟩) :=
  ⟨rfl, rfl,
   (falsy_answers_dropped ctxW "u1" argsZeroW [] rfl rfl).2.1 "party_size" (Or.inl rfl) rfl,
   (falsy_answers_dropped ctxW "u1" argsZeroW [] rfl rfl).2.2.1 "人数" (by decide),
   (falsy_answers_dropped ctxW "u1" argsZeroW [] rfl rfl).2.2.2.1 rfl rfl,
   (falsy_answers_dropped ctxW "u1" argsZeroW [] rfl rfl).1⟩

/-! ### C4: audio byte-count law -/

theorem onAudioDelta_sentMs (s : CallState) (b : Nat) :
    (onAudioDelta s b).1.sentMsTotal = s.sentMsTotal + mulawBytesToMs b := by
  rcases hs : s.currentAssistantItemId with _ | iid
  · simp only [onAudioDelta, hs]
  · simp only [onAudioDelta, hs]
    split <;> rfl

theorem mulawBytesToMs_add_of_dvd {a b : Nat} (ha : a % 8 = 0) :
    mulawBytesToMs (a + b) = mulawBytesToMs a + mulawBytesToMs b := by
  unfold mulawBytesToMs
  omega

theorem sum_mulawBytesToMs (l : List Nat) (hl : ∀ b ∈ l, b % 8 = 0) :
    (l.map mulawBytesToMs).sum = mulawBytesToMs l.sum := by
  induction l with
  | nil => rfl
  | cons b bs ih =>
    simp only [List.map_cons, List.sum_cons]
    rw [ih (fun x hx => hl x (List.mem_cons_of_mem _ hx)),
      ← mulawBytesToMs_add_of_dvd (hl b (List.mem_cons_self _ _))]

/-- C4 (amended): over any contiguous run of forwarded audio deltas the
tracker's `sentMs` increases by the SUM of the per-delta roundings
`Σ round(bᵢ × 1000 / 8000)` — the source rounds each delta separately —
and this equals the claimed `round(B × 1000 / 8000)` for the total `B`
whenever every delta's byte count is a multiple of 8. -/
theorem audio_byte_count_law (s : CallState) (run : List Nat) :
    ((runTrace s (run.map CallEvent.audioDelta)).1.sentMsTotal
      = s.sentMsTotal + (run.map mulawBytesToMs).sum)
    ∧ ((∀ b ∈ run, b % 8 = 0) →
        (runTrace s (run.map CallEvent.audioDelta)).1.sentMsTotal
          = s.sentMsTotal + mulawBytesToMs run.sum) := by
  have main : ∀ (t : CallState),
      (runTrace t (run.map CallEvent.audioDelta)).1.sentMsTotal
        = t.sentMsTotal + (run.map mulawBytesToMs).sum := by
    induction run with
    | nil => intro t; simp [runTrace]
    | cons b bs ih =>
      intro t
      simp only [List.map_cons, runTrace]
      rw [ih]
      have : (step t (CallEvent.audioDelta b)).1.sentMsTotal
          = t.sentMsTotal + mulawBytesToMs b := onAudioDelta_sentMs t b
      rw [this]
      simp [Nat.add_assoc]
  refine ⟨main s, fun h => ?_⟩
  rw [main s, sum_mulawBytesToMs run h]

/-- C4 (counterexample to the claim as stated): two consecutive deltas of
4 decoded bytes each (`B = 8`) advance `sentMs` by `1 + 1 = 2`, while the
claimed `round(B × 1000 / 8000)` is `1`. -/
theorem audio_byte_count_law_counterexample :
    ((runTrace { initialCallState with currentAssistantItemId := some "item" }
        [CallEvent.audioDelta 4, CallEvent.audioDelta 4]).1.sentMsTotal
      - ({ initialCallState with
            currentAssistantItemId := some "item" } : CallState).sentMsTotal = 2)
    ∧ mulawBytesToMs (4 + 4) = 1
    ∧ (2 : Nat) ≠ 1 := by
  refine ⟨?_, by decide, by decide⟩
  decide

/-- C4 (witness): the amended theorem at two 160-byte (20 ms) deltas:
`sentMs` grows by exactly `round(320 × 1000 / 8000) = 40`. -/
theorem audio_byte_count_law_witness :
    (∀ b ∈ [160, 160], b % 8 = 0)
    ∧ (runTrace initialCallState ([160, 160].map CallEvent.audioDelta)).1.sentMsTotal
        = initialCallState.sentMsTotal + mulawBytesToMs ([160, 160] : List Nat).sum :=
  ⟨by decide, (audio_byte_count_law initialCallState [160, 160]).2 (by decide)⟩

/-! ### C5: playback tracker invariants -/

/-- The event that begins a new assistant utterance (the tracker reset). -/
def isNewAssistantItem : CallEvent → Bool
  | .outputItemAdded t r _ => t == "message" && r == "assistant"
  | _ => false

/-- Within an utterance: `0 ≤ playedMs ≤ sentMs` (the lower bound is
carried by `Nat`), and every recorded mark position is at most `sentMs`. -/
def TrackerInv (s : CallState) : Prop :=
  s.playedMsTotal ≤ s.sentMsTotal ∧ ∀ p ∈ s.markMap, p.2 ≤ s.sentMsTotal

theorem mem_mapSet {l : List (String × Nat)} {k : String} {v : Nat}
    {p : String × Nat} (h : p ∈ mapSet l k v) : p ∈ l ∨ p = (k, v) := by
  unfold mapSet at h
  rcases List.mem_append.mp h with h | h
  · exact Or.inl (List.mem_filter.mp h).1
  · exact Or.inr (List.mem_singleton.mp h)

theorem mem_mapDelete {l : List (String × Nat)} {k : String}
    {p : String × Nat} (h : p ∈ mapDelete l k) : p ∈ l :=
  (List.mem_filter.mp h).1

theorem mapGet_mem {l : List (String × Nat)} {k : String} {v : Nat}
    (h : mapGet l k = some v) : (k, v) ∈ l := by
  unfold mapGet at h
  obtain ⟨p, hlast, hsnd⟩ := Option.map_eq_some'.mp h
  obtain ⟨hne, hpeq⟩ := List.mem_getLast?_eq_getLast (Option.mem_def.mpr hlast)
  have hpmem : p ∈ l.filter (fun q => q.1 == k) := hpeq ▸ List.getLast_mem hne
  obtain ⟨hmem, hpred⟩ := List.mem_filter.mp hpmem
  have hk : p.1 = k := by simpa using hpred
  have : p = (k, v) := Prod.ext hk hsnd
  rwa [this] at hmem

/-- C5: the playback tracker keeps `0 ≤ playedMs ≤ sentMs` (and every
recorded mark at most `sentMs`) across every event of the per-call
handler; within an assistant utterance (that is, for every event other
than the tracker-resetting new-assistant-item) `playedMs` never decreases;
and when the carrier acknowledges a mark recorded at `sentMs = S`, if
`clearing = false` then immediately afterwards `playedMs ≥ S`, while if
`clearing = true` the acknowledgement is discarded and `playedMs` is
unchanged. -/
theorem playback_tracker_invariants (s : CallState) (e : CallEvent)
    (h : TrackerInv s) :
    TrackerInv (step s e).1
    ∧ (isNewAssistantItem e = false →
        s.playedMsTotal ≤ (step s e).1.playedMsTotal)
    ∧ (∀ nm S, e = CallEvent.twilioMark (some nm) →
        mapGet s.markMap nm = some S →
        (s.clearing = false → S ≤ (step s e).1.playedMsTotal)
        ∧ (s.clearing = true → (step s e).1.playedMsTotal = s.playedMsTotal)) := by
  obtain ⟨h1, h2⟩ := h
  cases e with
  | sessionUpdated =>
    refine ⟨?_, fun _ => ?_, fun nm S he => absurd he (by simp)⟩
    · unfold TrackerInv
      simp only [step, onSessionUpdated]
      split <;> exact ⟨h1, h2⟩
    · simp only [step, onSessionUpdated]
      split <;> exact Nat.le_refl _
  | outputItemAdded t r i =>
    refine ⟨?_, fun hnew => ?_, fun nm S he => absurd he (by simp)⟩
    · unfold TrackerInv
      simp only [step, onOutputItemAdded]
      split
      · exact ⟨Nat.zero_le _, by simp⟩
      · exact ⟨h1, h2⟩
    · simp only [isNewAssistantItem] at hnew
      simp only [step, onOutputItemAdded, hnew, Bool.false_eq_true, if_false]
      exact Nat.le_refl _
  | audioDelta b =>
    refine ⟨?_, fun _ => ?_, fun nm S he => absurd he (by simp)⟩
    · unfold TrackerInv
      rcases hs : s.currentAssistantItemId with _ | iid
      · simp only [step, onAudioDelta, hs]
        exact ⟨le_trans h1 (Nat.le_add_right _ _),
          fun p hp => le_trans (h2 p hp) (Nat.le_add_right _ _)⟩
      · simp only [step, onAudioDelta, hs]
        split
        · refine ⟨le_trans h1 (Nat.le_add_right _ _), fun p hp => ?_⟩
          rcases mem_mapSet hp with hp | rfl
          · exact le_trans (h2 p hp) (Nat.le_add_right _ _)
          · exact Nat.le_refl _
        · exact ⟨le_trans h1 (Nat.le_add_right _ _),
            fun p hp => le_trans (h2 p hp) (Nat.le_add_right _ _)⟩
    · rcases hs : s.currentAssistantItemId with _ | iid
      · simp only [step, onAudioDelta, hs]
        exact Nat.le_refl _
      · simp only [step, onAudioDelta, hs]
        split <;> exact Nat.le_refl _
  | responseDone txt =>
    refine ⟨?_, fun _ => ?_, fun nm S he => absurd he (by simp)⟩
    · unfold TrackerInv
      simp only [step, onResponseDone]
      split
      · split <;> exact ⟨h1, h2⟩
      · exact ⟨h1, h2⟩
    · simp only [step, onResponseDone]
      split
      · split <;> exact Nat.le_refl _
      · exact Nat.le_refl _
  | speechStarted =>
    refine ⟨?_, fun _ => ?_, fun nm S he => absurd he (by simp)⟩
    · unfold TrackerInv
      simp only [step, onSpeechStarted]
      split
      · exact ⟨h1, h2⟩
      · split <;> exact ⟨h1, h2⟩
    · simp only [step, onSpeechStarted]
      split
      · exact Nat.le_refl _
      · split <;> exact Nat.le_refl _
  | speechStopped =>
    refine ⟨?_, fun _ => ?_, fun nm S he => absurd he (by simp)⟩
    · unfold TrackerInv
      simp only [step, onSpeechStopped]
      split <;> exact ⟨h1, h2⟩
    · simp only [step, onSpeechStopped]
      split <;> exact Nat.le_refl _
  | debounceTimerFire =>
    refine ⟨?_, fun _ => ?_, fun nm S he => absurd he (by simp)⟩
    · unfold TrackerInv
      simp only [step, onDebounceTimerFire, confirmBargeIn]
      split
      · rcases s.currentAssistantItemId with _ | iid <;> exact ⟨h1, h2⟩
      · exact ⟨h1, h2⟩
    · simp only [step, onDebounceTimerFire, confirmBargeIn]
      split
      · rcases s.currentAssistantItemId with _ | iid <;> exact Nat.le_refl _
      · exact Nat.le_refl _
  | sessionUpdateTimerFire =>
    exact ⟨⟨h1, h2⟩, fun _ => Nat.le_refl _, fun nm S he => absurd he (by simp)⟩
  | twilioMark name =>
    rcases name with _ | nm
    · exact ⟨⟨h1, h2⟩, fun _ => Nat.le_refl _,
        fun nm S he => absurd he (by simp)⟩
    · cases hget : mapGet s.markMap nm with
      | none =>
        refine ⟨?_, fun _ => ?_, fun nm2 S he hget2 => ?_⟩
        · unfold TrackerInv
          simp only [step, onTwilioMark, hget]
          exact ⟨h1, h2⟩
        · simp only [step, onTwilioMark, hget]
          exact Nat.le_refl _
        · have hnm : nm2 = nm := by
            have := he
            simp only [CallEvent.twilioMark.injEq, Option.some.injEq] at this
            exact this.symm
          rw [hnm, hget] at hget2
          cases hget2
      | some endMs =>
        have hend : endMs ≤ s.sentMsTotal := h2 _ (mapGet_mem hget)
        cases hcl : s.clearing with
        | true =>
          refine ⟨?_, fun _ => ?_, fun nm2 S he hget2 => ?_⟩
          · unfold TrackerInv
            simp only [step, onTwilioMark, hget, hcl, if_true]
            exact ⟨h1, fun p hp => h2 p (mem_mapDelete hp)⟩
          · simp only [step, onTwilioMark, hget, hcl, if_true]
            exact Nat.le_refl _
          · refine ⟨fun hcf => ?_, fun _ => ?_⟩
            · exact Bool.noConfusion hcf
            · simp only [step, onTwilioMark, hget, hcl, if_true]
        | false =>
          refine ⟨?_, fun _ => ?_, fun nm2 S he hget2 => ?_⟩
          · unfold TrackerInv
            simp only [step, onTwilioMark, hget, hcl, Bool.false_eq_true, if_false]
            split
            · exact ⟨Nat.max_le.mpr ⟨h1, hend⟩,
                fun p hp => h2 p (mem_mapDelete hp)⟩
            · exact ⟨Nat.max_le.mpr ⟨h1, hend⟩,
                fun p hp => h2 p (mem_mapDelete hp)⟩
          · simp only [step, onTwilioMark, hget, hcl, Bool.false_eq_true, if_false]
            split <;> exact Nat.le_max_left _ _
          · have hnm : nm2 = nm := by
              have := he
              simp only [CallEvent.twilioMark.injEq, Option.some.injEq] at this
              exact this.symm
            rw [hnm, hget] at hget2
            have hSe : S = endMs := by injection hget2 with hh; exact hh.symm
            refine ⟨fun _ => ?_, fun hcf => ?_⟩
            · simp only [step, onTwilioMark, hget, hcl, Bool.false_eq_true, if_false]
              split <;> (rw [hSe]; exact Nat.le_max_right _ _)
            · exact Bool.noConfusion hcf

/-- A mid-utterance tracker state: 400 ms sent, 100 ms played, one
outstanding mark at 300 ms. -/
def trackerStateW : CallState :=
  { initialCallState with
    currentAssistantItemId := some "it",
    sentMsTotal := 400, playedMsTotal := 100, markMap := [("m1", 300)] }

/-- C5 (witness): acknowledging the mark recorded at 300 ms while not
clearing keeps the invariant and lifts `playedMs` to at least 300. -/
theorem playback_tracker_invariants_witness :
    TrackerInv trackerStateW
    ∧ mapGet trackerStateW.markMap "m1" = some 300
    ∧ trackerStateW.clearing = false
    ∧ TrackerInv (step trackerStateW (CallEvent.twilioMark (some "m1"))).1
    ∧ 300 ≤ (step trackerStateW (CallEvent.twilioMark (some "m1"))).1.playedMsTotal :=
  ⟨⟨by decide, by decide⟩, by decide, rfl,
   (playback_tracker_invariants trackerStateW
     (CallEvent.twilioMark (some "m1")) ⟨by decide, by decide⟩).1,
   ((playback_tracker_invariants trackerStateW
     (CallEvent.twilioMark (some "m1")) ⟨by decide, by decide⟩).2.2 "m1" 300 rfl
     (by decide)).1 rfl⟩

/-! ### C6: barge-in debounce -/

theorem no_clear_truncate_without_fire (t : CallState) (e : CallEvent)
    (hne : e ≠ CallEvent.debounceTimerFire) :
    CallOutput.clearTwilio ∉ (step t e).2
    ∧ (∀ i c m, CallOutput.sendTruncate i c m ∉ (step t e).2) := by
  cases e with
  | sessionUpdated =>
    constructor
    · simp only [step, onSessionUpdated]
      split <;> simp
    · intro i c m
      simp only [step, onSessionUpdated]
      split <;> simp
  | outputItemAdded a b c =>
    constructor
    · simp only [step, onOutputItemAdded]
      split <;> simp
    · intro i c m
      simp only [step, onOutputItemAdded]
      split <;> simp
  | audioDelta b =>
    constructor
    · rcases hs : t.currentAssistantItemId with _ | iid
      · simp [step, onAudioDelta, hs]
      · simp only [step, onAudioDelta, hs]
        split <;> simp
    · intro i c m
      rcases hs : t.currentAssistantItemId with _ | iid
      · simp [step, onAudioDelta, hs]
      · simp only [step, onAudioDelta, hs]
        split <;> simp
  | responseDone txt =>
    constructor
    · simp only [step, onResponseDone]
      split
      · split <;> simp
      · simp
    · intro i c m
      simp only [step, onResponseDone]
      split
      · split <;> simp
      · simp
  | speechStarted =>
    constructor
    · simp only [step, onSpeechStarted]
      split
      · simp
      · split <;> simp
    · intro i c m
      simp only [step, onSpeechStarted]
      split
      · simp
      · split <;> simp
  | speechStopped =>
    constructor
    · simp only [step, onSpeechStopped]
      split <;> simp
    · intro i c m
      simp only [step, onSpeechStopped]
      split <;> simp
  | twilioMark name =>
    constructor
    · rcases name with _ | nm
      · simp [step, onTwilioMark]
      · rcases hm : mapGet t.markMap nm with _ | endMs
        · simp [step, onTwilioMark, hm]
        · simp only [step, onTwilioMark, hm]
          split
          · simp
          · split <;> simp [sendSessionUpdateFn]
    · intro i c m
      rcases name with _ | nm
      · simp [step, onTwilioMark]
      · rcases hm : mapGet t.markMap nm with _ | endMs
        · simp [step, onTwilioMark, hm]
        · simp only [step, onTwilioMark, hm]
          split
          · simp
          · split <;> simp [sendSessionUpdateFn]
  | debounceTimerFire => exact absurd rfl hne
  | sessionUpdateTimerFire => exact ⟨by simp [step, onSessionUpdateTimerFire],
      fun i c m => by simp [step, onSessionUpdateTimerFire]⟩

/-- C6: after a `speech_started` that starts the barge-in debounce
(normal phase, at least `MinRemainMs` of audio remaining): starting emits
no clear/truncate; no event other than the debounce-timer fire ever emits
a clear or a truncate, so if `speech_stopped` arrives before the timer
fires nothing is cleared or truncated and the cancelled timer can no
longer fire; and an undisturbed fire emits exactly one `clear` to the
carrier and exactly one `conversation.item.truncate` with
`content_index = 0` and `audio_end_ms` equal to `playedMs` at the moment
of the fire. -/
theorem barge_in_debounce (s : CallState) (iid : String)
    (hphase : s.conversationPhase = Phase.normal)
    (hrem : bargeInMinRemainMs ≤ s.sentMsTotal - s.playedMsTotal)
    (hitem : s.currentAssistantItemId = some iid) :
    ((step s CallEvent.speechStarted).1.isBargeInPending = true
      ∧ (step s CallEvent.speechStarted).1.bargeInTimerArmed = true
      ∧ (step s CallEvent.speechStarted).2 = [CallOutput.logEvent "vad_event"]
      ∧ (step s CallEvent.speechStarted).1.currentAssistantItemId = some iid)
    ∧ (∀ (t : CallState) (e : CallEvent), e ≠ CallEvent.debounceTimerFire →
        CallOutput.clearTwilio ∉ (step t e).2
        ∧ (∀ i c m, CallOutput.sendTruncate i c m ∉ (step t e).2))
    ∧ ((step (step s CallEvent.speechStarted).1 CallEvent.speechStopped).1.bargeInTimerArmed
          = false
      ∧ eventEnabled (step (step s CallEvent.speechStarted).1 CallEvent.speechStopped).1
          CallEvent.debounceTimerFire = false)
    ∧ (∀ t : CallState, t.isBargeInPending = true →
        t.currentAssistantItemId = some iid →
        (step t CallEvent.debounceTimerFire).2
          = [CallOutput.logEvent "barge_in_confirmed", CallOutput.clearTwilio,
             CallOutput.sendTruncate iid 0 t.playedMsTotal]) := by
  have hng : (s.conversationPhase == Phase.greeting) = false := by
    rw [hphase]; rfl
  have hnr : ¬ (s.sentMsTotal - s.playedMsTotal < bargeInMinRemainMs) :=
    Nat.not_lt.mpr hrem
  refine ⟨?_, no_clear_truncate_without_fire, ?_, ?_⟩
  · refine ⟨?_, ?_, ?_, ?_⟩ <;>
      simp [step, onSpeechStarted, hng, hnr, hitem]
  · simp only [step, onSpeechStarted, hng, Bool.false_eq_true, if_false, if_neg hnr,
      onSpeechStopped, eventEnabled]
    simp
  · intro t hp hi
    simp only [step, onDebounceTimerFire, hp, if_true, confirmBargeIn]
    have hi0 : ({ t with bargeInTimerArmed := false } : CallState).currentAssistantItemId
        = some iid := hi
    rw [hi0]
    rfl

/-- Scenario-6 priors: assistant mid-sentence, `sentMs = 4000`,
`playedMs = 2000`, normal phase. -/
def bargeStateW : CallState :=
  { initialCallState with
    conversationPhase := Phase.normal,
    currentAssistantItemId := some "it",
    sentMsTotal := 4000, playedMsTotal := 2000 }

/-- C6 (witness): scenario 6 of the spec — `speech_started` with no
`speech_stopped` within the debounce yields exactly one clear and one
`truncate("it", 0, 2000)`; scenario 5 — a `speech_stopped` before the
fire disarms the timer. -/
theorem barge_in_debounce_witness :
    (bargeStateW.conversationPhase = Phase.normal)
    ∧ (bargeInMinRemainMs ≤ bargeStateW.sentMsTotal - bargeStateW.playedMsTotal)
    ∧ (bargeStateW.currentAssistantItemId = some "it")
    ∧ (step (step bargeStateW CallEvent.speechStarted).1
          CallEvent.debounceTimerFire).2
        = [CallOutput.logEvent "barge_in_confirmed", CallOutput.clearTwilio,
           CallOutput.sendTruncate "it" 0 2000]
    ∧ (step (step bargeStateW CallEvent.speechStarted).1
          CallEvent.speechStopped).1.bargeInTimerArmed = false :=
  ⟨rfl, by decide, rfl,
   (barge_in_debounce bargeStateW "it" rfl (by decide) rfl).2.2.2
     ((step bargeStateW CallEvent.speechStarted).1)
     ((barge_in_debounce bargeStateW "it" rfl (by decide) rfl).1.1)
     ((barge_in_debounce bargeStateW "it" rfl (by decide) rfl).1.2.2.2),
   (barge_in_debounce bargeStateW "it" rfl (by decide) rfl).2.2.1.1⟩

/-! ### C7: greeting lock -/

/-- Recognizer for an outbound `session.update` with the normal-phase
settings. -/
def isNormalUpdate : CallOutput → Bool
  | .sessionUpdateSent Phase.normal => true
  | _ => false

/-- Number of normal-phase `session.update` messages in an output list. -/
def countNormalUpdates (outs : List CallOutput) : Nat :=
  (outs.filter isNormalUpdate).length

theorem step_normal_count (t : CallState) (e : CallEvent) :
    countNormalUpdates (step t e).2 ≤ 1
    ∧ (t.conversationPhase = Phase.normal → countNormalUpdates (step t e).2 = 0)
    ∧ (countNormalUpdates (step t e).2 = 0 →
        (step t e).1.conversationPhase = t.conversationPhase)
    ∧ (countNormalUpdates (step t e).2 = 1 →
        (step t e).1.conversationPhase = Phase.normal
        ∧ ∃ nm endMs, e = CallEvent.twilioMark (some nm)
            ∧ mapGet t.markMap nm = some endMs
            ∧ t.conversationPhase = Phase.greeting
            ∧ t.clearing = false
            ∧ 0 < t.greetingAudioEndMs
            ∧ t.greetingAudioEndMs * 9 ≤ (max t.playedMsTotal endMs) * 10) := by
  cases e with
  | sessionUpdated =>
    have h0 : countNormalUpdates (step t CallEvent.sessionUpdated).2 = 0 := by
      simp only [step, onSessionUpdated]
      split <;> rfl
    have hp : (step t CallEvent.sessionUpdated).1.conversationPhase
        = t.conversationPhase := by
      simp only [step, onSessionUpdated]
      split <;> rfl
    exact ⟨by omega, fun _ => h0, fun _ => hp, fun h1 => by simp [h0] at h1⟩
  | outputItemAdded a b c =>
    have h0 : countNormalUpdates (step t (CallEvent.outputItemAdded a b c)).2 = 0 := by
      simp only [step, onOutputItemAdded]
      split <;> rfl
    have hp : (step t (CallEvent.outputItemAdded a b c)).1.conversationPhase
        = t.conversationPhase := by
      simp only [step, onOutputItemAdded]
      split <;> rfl
    exact ⟨by omega, fun _ => h0, fun _ => hp, fun h1 => by simp [h0] at h1⟩
  | audioDelta b =>
    have h0 : countNormalUpdates (step t (CallEvent.audioDelta b)).2 = 0 := by
      rcases hs : t.currentAssistantItemId with _ | iid
      · simp only [step, onAudioDelta, hs]
        rfl
      · simp only [step, onAudioDelta, hs]
        split <;> rfl
    have hp : (step t (CallEvent.audioDelta b)).1.conversationPhase
        = t.conversationPhase := by
      rcases hs : t.currentAssistantItemId with _ | iid
      · simp only [step, onAudioDelta, hs]
      · simp only [step, onAudioDelta, hs]
        split <;> rfl
    exact ⟨by omega, fun _ => h0, fun _ => hp, fun h1 => by simp [h0] at h1⟩
  | responseDone txt =>
    have h0 : countNormalUpdates (step t (CallEvent.responseDone txt)).2 = 0 := by
      simp only [step, onResponseDone]
      split
      · split <;> rfl
      · rfl
    have hp : (step t (CallEvent.responseDone txt)).1.conversationPhase
        = t.conversationPhase := by
      simp only [step, onResponseDone]
      split
      · split <;> rfl
      · rfl
    exact ⟨by omega, fun _ => h0, fun _ => hp, fun h1 => by simp [h0] at h1⟩
  | speechStarted =>
    have h0 : countNormalUpdates (step t CallEvent.speechStarted).2 = 0 := by
      simp only [step, onSpeechStarted]
      split
      · rfl
      · split <;> rfl
    have hp : (step t CallEvent.speechStarted).1.conversationPhase
        = t.conversationPhase := by
      simp only [step, onSpeechStarted]
      split
      · rfl
      · split <;> rfl
    exact ⟨by omega, fun _ => h0, fun _ => hp, fun h1 => by simp [h0] at h1⟩
  | speechStopped =>
    have h0 : countNormalUpdates (step t CallEvent.speechStopped).2 = 0 := by
      simp only [step, onSpeechStopped]
      split <;> rfl
    have hp : (step t CallEvent.speechStopped).1.conversationPhase
        = t.conversationPhase := by
      simp only [step, onSpeechStopped]
      split <;> rfl
    exact ⟨by omega, fun _ => h0, fun _ => hp, fun h1 => by simp [h0] at h1⟩
  | debounceTimerFire =>
    have h0 : countNormalUpdates (step t CallEvent.debounceTimerFire).2 = 0 := by
      simp only [step, onDebounceTimerFire, confirmBargeIn]
      split
      · rcases hs : t.currentAssistantItemId with _ | iid <;> rfl
      · rfl
    have hp : (step t CallEvent.debounceTimerFire).1.conversationPhase
        = t.conversationPhase := by
      simp only [step, onDebounceTimerFire, confirmBargeIn]
      split
      · rcases hs : t.currentAssistantItemId with _ | iid <;> rfl
      · rfl
    exact ⟨by omega, fun _ => h0, fun _ => hp, fun h1 => by simp [h0] at h1⟩
  | sessionUpdateTimerFire =>
    have h0 : countNormalUpdates (step t CallEvent.sessionUpdateTimerFire).2 = 0 := rfl
    exact ⟨by omega, fun _ => h0, fun _ => rfl, fun h1 => by simp [h0] at h1⟩
  | twilioMark name =>
    rcases name with _ | nm
    · have h0 : countNormalUpdates (step t (CallEvent.twilioMark none)).2 = 0 := rfl
      exact ⟨by omega, fun _ => h0, fun _ => rfl, fun h1 => by simp [h0] at h1⟩
    · rcases hm : mapGet t.markMap nm with _ | endMs
      · have h0 : countNormalUpdates (step t (CallEvent.twilioMark (some nm))).2 = 0 := by
          simp only [step, onTwilioMark, hm]
          rfl
        have hp : (step t (CallEvent.twilioMark (some nm))).1.conversationPhase
            = t.conversationPhase := by
          simp only [step, onTwilioMark, hm]
        exact ⟨by omega, fun _ => h0, fun _ => hp, fun h1 => by simp [h0] at h1⟩
      · cases hcl : t.clearing with
        | true =>
          have h0 : countNormalUpdates (step t (CallEvent.twilioMark (some nm))).2 = 0 := by
            simp only [step, onTwilioMark, hm, hcl, if_true]
            rfl
          have hp : (step t (CallEvent.twilioMark (some nm))).1.conversationPhase
              = t.conversationPhase := by
            simp only [step, onTwilioMark, hm, hcl, if_true]
          exact ⟨by omega, fun _ => h0, fun _ => hp, fun h1 => by simp [h0] at h1⟩
        | false =>
          by_cases hcond : (t.conversationPhase == Phase.greeting
              && decide (t.greetingAudioEndMs > 0)
              && decide ((max t.playedMsTotal endMs) * 10 ≥ t.greetingAudioEndMs * 9)) = true
          · have hfacts : (t.conversationPhase = Phase.greeting
                ∧ 0 < t.greetingAudioEndMs)
                ∧ t.greetingAudioEndMs * 9 ≤ (max t.playedMsTotal endMs) * 10 := by
              simpa [Bool.and_eq_true, beq_iff_eq, decide_eq_true_eq] using hcond
            have hstep : (step t (CallEvent.twilioMark (some nm))).2
                = [CallOutput.sessionUpdateSent Phase.normal,
                   CallOutput.logEvent "session_update_sent"] := by
              simp only [step, onTwilioMark, hm, hcl, Bool.false_eq_true, if_false,
                sendSessionUpdateFn]
              rw [if_pos hcond]
            have hph : (step t (CallEvent.twilioMark (some nm))).1.conversationPhase
                = Phase.normal := by
              simp only [step, onTwilioMark, hm, hcl, Bool.false_eq_true, if_false,
                sendSessionUpdateFn]
              rw [if_pos hcond]
            refine ⟨by rw [hstep]; decide, fun hn => ?_, fun h0 => ?_, fun _ => ?_⟩
            · exact absurd (hfacts.1.1.symm.trans hn) (by decide)
            · rw [hstep] at h0
              simp [countNormalUpdates, isNormalUpdate] at h0
            · exact ⟨hph, nm, endMs, rfl, hm, hfacts.1.1, rfl, hfacts.1.2, hfacts.2⟩
          · have h0 : countNormalUpdates (step t (CallEvent.twilioMark (some nm))).2 = 0 := by
              simp only [step, onTwilioMark, hm, hcl, Bool.false_eq_true, if_false,
                sendSessionUpdateFn]
              rw [if_neg hcond]
              rfl
            have hp : (step t (CallEvent.twilioMark (some nm))).1.conversationPhase
                = t.conversationPhase := by
              simp only [step, onTwilioMark, hm, hcl, Bool.false_eq_true, if_false,
                sendSessionUpdateFn]
              rw [if_neg hcond]
            exact ⟨by omega, fun _ => h0, fun _ => hp, fun h1 => by simp [h0] at h1⟩

theorem countNormalUpdates_append (a b : List CallOutput) :
    countNormalUpdates (a ++ b) = countNormalUpdates a + countNormalUpdates b := by
  simp [countNormalUpdates, List.filter_append]

theorem runTrace_normal_count (evs : List CallEvent) (s : CallState) :
    (s.conversationPhase = Phase.normal →
      countNormalUpdates (runTrace s evs).2 = 0)
    ∧ countNormalUpdates (runTrace s evs).2 ≤ 1 := by
  induction evs generalizing s with
  | nil => exact ⟨fun _ => rfl, by simp [runTrace, countNormalUpdates]⟩
  | cons e es ih =>
    simp only [runTrace, countNormalUpdates_append]
    constructor
    · intro hn
      have h0 := (step_normal_count s e).2.1 hn
      have hphase := (step_normal_count s e).2.2.1 h0
      rw [h0, (ih _).1 (by rw [hphase, hn])]
    · rcases Nat.lt_or_ge (countNormalUpdates (step s e).2) 1 with hlt | hge
      · have h0 : countNormalUpdates (step s e).2 = 0 := by omega
        rw [h0]
        simpa using (ih _).2
      · have h1 : countNormalUpdates (step s e).2 = 1 :=
          Nat.le_antisymm (step_normal_count s e).1 hge
        have hnorm := ((step_normal_count s e).2.2.2 h1).1
        rw [h1, (ih _).1 hnorm]

/-- C7: while the phase is `greeting`, a `speech_started` is ignored
entirely — the state (and with it the debounce timer) is unchanged and
only the VAD and `barge_in_ignored` log records are emitted, so no
barge-in is ever confirmed; starting from a greeting-phase state, the
normal-phase `session.update` is emitted at most once per call; and any
step that emits it is a mark acknowledgement arriving in greeting phase
with `clearing = false` whose updated `playedMs` has reached 90% of the
`greetingAudioEndMs` recorded at the greeting's `response.done`. -/
theorem greeting_lock (s : CallState) (evs : List CallEvent)
    (_hg : s.conversationPhase = Phase.greeting) :
    (∀ t : CallState, t.conversationPhase = Phase.greeting →
        (step t CallEvent.speechStarted).1 = t
        ∧ (step t CallEvent.speechStarted).2
            = [CallOutput.logEvent "vad_event", CallOutput.logEvent "barge_in_ignored"])
    ∧ countNormalUpdates (runTrace s evs).2 ≤ 1
    ∧ (∀ (t : CallState) (e : CallEvent),
        countNormalUpdates (step t e).2 = 1 →
        (step t e).1.conversationPhase = Phase.normal
        ∧ ∃ nm endMs, e = CallEvent.twilioMark (some nm)
            ∧ mapGet t.markMap nm = some endMs
            ∧ t.conversationPhase = Phase.greeting
            ∧ t.clearing = false
            ∧ 0 < t.greetingAudioEndMs
            ∧ t.greetingAudioEndMs * 9 ≤ (max t.playedMsTotal endMs) * 10) := by
  refine ⟨?_, (runTrace_normal_count evs s).2,
    fun t e h1 => (step_normal_count t e).2.2.2 h1⟩
  intro t ht
  have hbg : (t.conversationPhase == Phase.greeting) = true := by
    rw [ht]; rfl
  exact ⟨by simp [step, onSpeechStarted, hbg], by simp [step, onSpeechStarted, hbg]⟩

/-- C7 (witness): from the initial greeting state, after the greeting is
spoken (two 1600-byte deltas, `response.done`, both marks acknowledged),
exactly one normal-phase `session.update` is emitted, and a
`speech_started` during the greeting leaves the state untouched. -/
theorem greeting_lock_witness :
    (initialCallState.conversationPhase = Phase.greeting)
    ∧ countNormalUpdates (runTrace initialCallState
        [CallEvent.outputItemAdded "message" "assistant" "g1",
         CallEvent.speechStarted,
         CallEvent.audioDelta 1600, CallEvent.audioDelta 1600,
         CallEvent.responseDone "こんにちは",
         CallEvent.twilioMark (some "a:g1:ms:200:seq:1"),
         CallEvent.twilioMark (some "a:g1:ms:400:seq:2")]).2 ≤ 1
    ∧ (step initialCallState CallEvent.speechStarted).1 = initialCallState :=
  ⟨rfl,
   (greeting_lock initialCallState
     [CallEvent.outputItemAdded "message" "assistant" "g1",
      CallEvent.speechStarted,
      CallEvent.audioDelta 1600, CallEvent.audioDelta 1600,
      CallEvent.responseDone "こんにちは",
      CallEvent.twilioMark (some "a:g1:ms:200:seq:1"),
      CallEvent.twilioMark (some "a:g1:ms:400:seq:2")] rfl).2.1,
   ((greeting_lock initialCallState [] rfl).1 initialCallState rfl).1⟩

/-! ### C8: session-update ACK timeout -/

/-- C8 (amended): when the 3-second `session.updated` ACK timer expires,
the handler emits exactly the `session_update_timeout` log record; it
does NOT close the model socket — no close is emitted and the connection
state is unchanged (the timer is simply disarmed). -/
theorem session_update_timeout_behavior (s : CallState) :
    (step s CallEvent.sessionUpdateTimerFire).2
        = [CallOutput.logEvent "session_update_timeout"]
    ∧ CallOutput.closeModelSocket ∉ (step s CallEvent.sessionUpdateTimerFire).2
    ∧ (step s CallEvent.sessionUpdateTimerFire).1.connected = s.connected
    ∧ (step s CallEvent.sessionUpdateTimerFire).1
        = { s with sessionUpdateTimerArmed := false } :=
  ⟨rfl, by simp [step, onSessionUpdateTimerFire], rfl, rfl⟩

/-- C8 (counterexample to the claim as stated): at the armed initial
state the timeout fires, emits the `session_update_timeout` record, and
no model-socket close is emitted — the connection stays open. -/
theorem session_update_timeout_counterexample :
    eventEnabled initialCallState CallEvent.sessionUpdateTimerFire = true
    ∧ (step initialCallState CallEvent.sessionUpdateTimerFire).2
        = [CallOutput.logEvent "session_update_timeout"]
    ∧ CallOutput.closeModelSocket ∉ (step initialCallState CallEvent.sessionUpdateTimerFire).2
    ∧ (step initialCallState CallEvent.sessionUpdateTimerFire).1.connected = true :=
  ⟨rfl, rfl, by decide, rfl⟩

/-! ### C9: assembled system prompt ordering -/

/-- C9 (amended): for every tenant with a non-empty free-form system
prompt, the assembled instruction string consists of the tenant's
free-form content FIRST, under the `【店舗情報・追加指示】` header, with the
fixed instruction block (wall-clock time, override directive, field
labels, tool rules) appended LAST after a separator — the source orders it
this way deliberately so that the reservation logic takes priority. -/
theorem prompt_order (jstNow : String) (fields : List ReservationField)
    (base : String) (hb : base ≠ "") :
    assembledSystemPrompt jstNow fields (some base)
      = "【店舗情報・追加指示】\n" ++ base ++ "\n\n---\n\n"
        ++ fixedInstructionBlock jstNow fields := by
  unfold assembledSystemPrompt
  simp [hb]

set_option maxRecDepth 16384 in
/-- C9 (counterexample to the claim as stated): for a concrete tenant
prompt, the assembled string does not begin with the fixed instruction
block (no suffix completes it); it is exactly the header, the tenant
content, a separator, and then the fixed block. -/
theorem prompt_order_counterexample :
    ¬ (∃ rest : String,
        assembledSystemPrompt "2026-10-12 12:00 JST" DEFAULT_RESERVATION_FIELDS
            (some "営業時間は10時から18時です。")
          = fixedInstructionBlock "2026-10-12 12:00 JST" DEFAULT_RESERVATION_FIELDS
            ++ rest) := by
  rintro ⟨rest, h⟩
  have hL : (assembledSystemPrompt "2026-10-12 12:00 JST" DEFAULT_RESERVATION_FIELDS
      (some "営業時間は10時から18時です。")).data[1]? = some '店' := by decide
  have hdata : (fixedInstructionBlock "2026-10-12 12:00 JST" DEFAULT_RESERVATION_FIELDS
      ++ rest).data
      = (fixedInstructionBlock "2026-10-12 12:00 JST" DEFAULT_RESERVATION_FIELDS).data
        ++ rest.data := by
    obtain ⟨l⟩ := rest
    rfl
  have hlen : 1 < (fixedInstructionBlock "2026-10-12 12:00 JST"
      DEFAULT_RESERVATION_FIELDS).data.length := by decide
  have hF : (fixedInstructionBlock "2026-10-12 12:00 JST" DEFAULT_RESERVATION_FIELDS
      ++ rest).data[1]? = some '重' := by
    rw [hdata, List.getElem?_append_left hlen]
    decide
  rw [h, hF] at hL
  exact absurd hL (by decide)

set_option maxRecDepth 16384 in
/-- C9 (witness): the amended theorem at a concrete tenant prompt. -/
theorem prompt_order_witness :
    ("営業時間は10時から18時です。" ≠ "")
    ∧ assembledSystemPrompt "2026-10-12 12:00 JST" DEFAULT_RESERVATION_FIELDS
        (some "営業時間は10時から18時です。")
      = "【店舗情報・追加指示】\n" ++ "営業時間は10時から18時です。" ++ "\n\n---\n\n"
        ++ fixedInstructionBlock "2026-10-12 12:00 JST" DEFAULT_RESERVATION_FIELDS :=
  ⟨by decide,
   prompt_order "2026-10-12 12:00 JST" DEFAULT_RESERVATION_FIELDS
     "営業時間は10時から18時です。" (by decide)⟩
